import Mathlib

/-!
Shallow embedding of `src/zero_cost_etl/daily_sync.py`.

The script's pure cores are translated as Lean functions; the external I/O
stages (object-store download, HTTP response, spreadsheet calls) are made
explicit as inputs (sum types describing what the external system returned)
and outputs (a trace of log lines and of spreadsheet service calls).
Python exceptions raised by the row-processing code are modelled with
`Except PyError`.
-/

set_option autoImplicit false
set_option maxHeartbeats 1000000

deriving instance DecidableEq for Except

namespace DailySync

/-- Exceptions the Python row-processing code can raise while parsing a
downloaded report: `KeyError` from a dict subscript, `ValueError` from
`int()` on a non-numeric string, `TypeError` from `int(None)`, and
`IndexError` from a list subscript. -/
inductive PyError where
  | keyError
  | valueError
  | typeError
  | indexError
  deriving Repr, DecidableEq

/-- One cell of an emitted row. The Python code builds rows as heterogeneous
lists mixing strings, ints, and possibly `None` (a short CSV data line makes
`DictReader` fill missing values with `None`). -/
inductive Field where
  | s (v : String)
  | i (v : Int)
  | null
  deriving Repr, DecidableEq

/-- The characters Python `str.strip()` and `int()` treat as whitespace (the
ASCII ones; exotic unicode whitespace is not modelled). -/
def isPySpace (c : Char) : Bool :=
  c = ' ' || c = '\t' || c = '\n' || c = '\r' || c = '\x0b' || c = '\x0c'

/-- Drop leading whitespace characters. -/
def dropLeadingSpace : List Char → List Char
  | [] => []
  | c :: cs => if isPySpace c then dropLeadingSpace cs else c :: cs

/-- Models Python `str.strip()`: remove leading and trailing whitespace. -/
def pyStrip (s : String) : String :=
  ⟨dropLeadingSpace (dropLeadingSpace s.data.reverse).reverse⟩

/-- Splits a character list on a separator character, Python `str.split(sep)`
style: the empty string yields `[""]`, and each separator occurrence starts a
new piece. -/
def splitOnChar (sep : Char) : List Char → List (List Char)
  | [] => [[]]
  | c :: cs =>
    if c = sep then [] :: splitOnChar sep cs
    else
      match splitOnChar sep cs with
      | [] => [[c]]
      | p :: ps => (c :: p) :: ps

/-- Python `s.split(sep)` for a single-character separator. -/
def pySplit (sep : Char) (s : String) : List String :=
  (splitOnChar sep s.data).map (fun cs => ⟨cs⟩)

/-- The numeric value of a digit string. -/
def digitsToNat (ds : List Char) : Nat :=
  ds.foldl (fun a c => a * 10 + (c.toNat - 48)) 0

/-- Models Python `int(s)` on a string: optional surrounding whitespace, an
optional single sign, then one or more decimal digits (underscore digit
grouping is not modelled). Returns `none` where Python raises `ValueError`. -/
def pyIntOfString (s : String) : Option Int :=
  let core : Int → List Char → Option Int := fun sign ds =>
    if !ds.isEmpty && ds.all Char.isDigit then
      some (sign * Int.ofNat (digitsToNat ds))
    else none
  match (pyStrip s).data with
  | '-' :: ds => core (-1) ds
  | '+' :: ds => core 1 ds
  | ds => core 1 ds

/-- Python `int(s)` for a string argument, with `ValueError` on failure. -/
def pyIntS (s : String) : Except PyError Int :=
  match pyIntOfString s with
  | some n => .ok n
  | none => .error .valueError

/-- Python `int(v)` where `v` is either a string or `None` (as produced by
`DictReader` row lookups): `int(None)` raises `TypeError`. -/
def pyIntOpt (v : Option String) : Except PyError Int :=
  match v with
  | some s => pyIntS s
  | none => .error .typeError

/-- Models `csv.reader` record splitting for unquoted comma-separated input:
records are separated by a newline, a single trailing newline produces no
extra record, and an empty line produces the empty record `[]`. -/
def csvRecords (content : String) : List (List String) :=
  let ls := pySplit '\n' content
  let ls := match ls.reverse with
    | "" :: rest => rest.reverse
    | _ => ls
  ls.map (fun ln => if ln = "" then [] else pySplit ',' ln)

/-- A `DictReader` row: header names associated with cell values. A value is
`none` where `DictReader` filled a missing trailing cell with Python `None`. -/
abbrev PyRow := List (String × Option String)

/-- Models how `DictReader` builds one row dict: header names are zipped with
the line's cells, surplus cells (beyond the header) are dropped (they go under
the `None` restkey, unreachable by string lookup), and missing trailing cells
become `None`. Duplicate header names overwrite left to right, as in `dict`. -/
def mkRow (header fields : List String) : PyRow :=
  header.zip (fields.map some) ++ (header.drop fields.length).map (fun k => (k, none))

/-- Dict lookup on a row; later bindings shadow earlier ones as in a Python
`dict` built from `zip`. `none` means the key is absent (`KeyError` territory);
`some none` means the key maps to Python `None`. -/
def rowGet (r : PyRow) (k : String) : Option (Option String) :=
  (r.reverse.find? (fun p => p.1 == k)).map (fun p => p.2)

/-- Models `csv.DictReader(io.StringIO(content))`: the first record gives the
field names, empty records among the data are skipped, every other record
becomes a row dict. -/
def dictReader (content : String) : List PyRow :=
  match csvRecords content with
  | [] => []
  | header :: rest => (rest.filter (fun r => !r.isEmpty)).map (mkRow header)

/-- Line 74: `int(row.get('Daily User Installs', 0))` — an absent column gives
the int `0`, a present cell goes through `int()`. -/
def installsOf (row : PyRow) : Except PyError Int :=
  match rowGet row "Daily User Installs" with
  | none => .ok 0
  | some v => pyIntOpt v

/-- Line 75: `row.get('Country', 'Unknown')` — absent column gives the string
`'Unknown'`; a present cell may still be Python `None` on a short line. -/
def countryOf (row : PyRow) : Field :=
  match rowGet row "Country" with
  | none => .s "Unknown"
  | some (some c) => .s c
  | some none => .null

/-- Lines 70-83, the body of the Google Play parsing loop for one row:
`row['Date']` (KeyError if the header lacks `Date`), the date filter, the
installs conversion, and the `installs > 0` guard deciding emission. -/
def googleRowStep (dateStr : String) (row : PyRow) : Except PyError (Option (List Field)) :=
  match rowGet row "Date" with
  | none => .error .keyError
  | some dval =>
    if dval = some dateStr then
      match installsOf row with
      | .error e => .error e
      | .ok installs =>
        if 0 < installs then
          .ok (some [Field.s dateStr, countryOf row, Field.s "Android", Field.i installs])
        else .ok none
    else .ok none

/-- The Google Play parsing loop over all rows: rows are processed in order,
the first raised exception aborts the whole loop (the accumulated data is
discarded, as in Python), otherwise the emitted rows are collected in order. -/
def googleLoop (dateStr : String) : List PyRow → Except PyError (List (List Field))
  | [] => .ok []
  | row :: rest =>
    match googleRowStep dateStr row with
    | .error e => .error e
    | .ok none => googleLoop dateStr rest
    | .ok (some r) =>
      match googleLoop dateStr rest with
      | .error e => .error e
      | .ok tl => .ok (r :: tl)

/-- The console messages the script prints, one constructor per print site. -/
inductive Log where
  | fetchingGoogleBanner
  | fileNotFound
  | permissionDenied
  | permissionHint
  | downloadError (msg : String)
  | foundAndroid (n : Nat)
  | fetchingAppleBanner
  | appleApiError (body : String)
  | decompressFailed
  | missingColumns
  | foundIos (n : Nat)
  | noNewData
  | uploading (n : Nat)
  | uploadSuccess
  deriving Repr, DecidableEq

/-- What the object-store download stage of `get_google_play_data` produced:
the blob does not exist, access was `Forbidden`, some other exception was
raised while downloading, or the decoded text content. -/
inductive GDownload where
  | notFound
  | forbidden
  | genericError (msg : String)
  | success (content : String)

/-- Lines 32-86, `get_google_play_data`: given the target date already
formatted as `YYYY-MM-DD` and the outcome of the download stage, returns the
printed log lines and either the emitted rows or the propagated exception. -/
def get_google_play_data (dateStr : String) (dl : GDownload) :
    List Log × Except PyError (List (List Field)) :=
  match dl with
  | .notFound => ([.fetchingGoogleBanner, .fileNotFound], .ok [])
  | .forbidden => ([.fetchingGoogleBanner, .permissionDenied, .permissionHint], .ok [])
  | .genericError msg => ([.fetchingGoogleBanner, .downloadError msg], .ok [])
  | .success content =>
    match googleLoop dateStr (dictReader content) with
    | .ok data => ([.fetchingGoogleBanner, .foundAndroid data.length], .ok data)
    | .error e => ([.fetchingGoogleBanner], .error e)

/-- What one Google row contributes to the output when no exception occurs:
the `.ok` projection of `googleRowStep`. -/
def emitOf (dateStr : String) (row : PyRow) : Option (List Field) :=
  match googleRowStep dateStr row with
  | .ok v => v
  | .error _ => none

/-- The JWT header dict built on lines 96-100. -/
structure JwtHeader where
  alg : String
  kid : String
  typ : String
  deriving Repr, DecidableEq

/-- The JWT payload dict built on lines 101-105. -/
structure JwtPayload where
  iss : String
  exp : Int
  aud : String
  deriving Repr, DecidableEq

/-- The arguments the script passes to `jwt.encode` on line 107. The
elliptic-curve signature itself is library crypto; what the program
determines is exactly this tuple. -/
structure JwtEncodeCall where
  payload : JwtPayload
  key : String
  algorithm : String
  headers : JwtHeader
  deriving Repr, DecidableEq

/-- The Apple credentials read from the environment (lines 23-26). -/
structure AppleConfig where
  keyId : String
  issuerId : String
  privateKey : String
  vendorId : String

/-- Lines 94-107: the token construction in `get_apple_data`, with `now` the
value of `int(time.time())`. -/
def makeAppleToken (now : Int) (cfg : AppleConfig) : JwtEncodeCall :=
  { payload := { iss := cfg.issuerId, exp := now + 20 * 60, aud := "appstoreconnect-v1" }
    key := cfg.privateKey
    algorithm := "ES256"
    headers := { alg := "ES256", kid := cfg.keyId, typ := "JWT" } }

/-- The body of the Apple API response: either `gzip.decompress(...)` or the
UTF-8 decode raises (any exception is caught by the bare `except`), or the
decompressed decoded text. -/
inductive AppleBody where
  | invalid
  | valid (content : String)

/-- The Apple API response: HTTP status code, `response.text` (logged on a
non-200 status), and the body as seen by the decompression stage. -/
structure AppleResponse where
  status : Nat
  text : String
  body : AppleBody

/-- Line 137: the header record of the decompressed Apple report — the first
line of the stripped content, split on tabs. -/
def appleHeader (content : String) : List String :=
  pySplit '\t' ((pySplit '\n' (pyStrip content)).headD "")

/-- Line 147: the data lines of the decompressed Apple report, `lines[1:]`. -/
def appleDataLines (content : String) : List String :=
  (pySplit '\n' (pyStrip content)).tail

/-- Python `cols[i]` on a list: `IndexError` when the index is out of range
(the indices produced by `list.index` are non-negative). -/
def colGet (cols : List String) (i : Nat) : Except PyError String :=
  match cols[i]? with
  | some v => .ok v
  | none => .error .indexError

/-- Lines 148-158, the body of the Apple parsing loop for one line: split on
tabs, `int(cols[idx_units])`, `cols[idx_country]`, and the `units > 0` guard
deciding emission (in Python's evaluation order). -/
def appleRowStep (dateStr : String) (iu ic : Nat) (line : String) :
    Except PyError (Option (List Field)) :=
  let cols := pySplit '\t' line
  match colGet cols iu with
  | .error e => .error e
  | .ok us =>
    match pyIntS us with
    | .error e => .error e
    | .ok units =>
      match colGet cols ic with
      | .error e => .error e
      | .ok country =>
        if 0 < units then
          .ok (some [Field.s dateStr, Field.s country, Field.s "iOS", Field.i units])
        else .ok none

/-- The Apple parsing loop over all data lines, in order; the first raised
exception aborts the loop and propagates. -/
def appleLoop (dateStr : String) (iu ic : Nat) : List String → Except PyError (List (List Field))
  | [] => .ok []
  | line :: rest =>
    match appleRowStep dateStr iu ic line with
    | .error e => .error e
    | .ok none => appleLoop dateStr iu ic rest
    | .ok (some r) =>
      match appleLoop dateStr iu ic rest with
      | .error e => .error e
      | .ok tl => .ok (r :: tl)

/-- Lines 134-161: parse the decompressed report. The column positions come
from `header.index('Units')` and `header.index('Country Code')`; a
`ValueError` from either lookup is caught and turned into a log line and an
empty result. -/
def parseAppleReport (dateStr content : String) :
    List Log × Except PyError (List (List Field)) :=
  match (appleHeader content).findIdx? (fun h => h == "Units"),
        (appleHeader content).findIdx? (fun h => h == "Country Code") with
  | some iu, some ic =>
    match appleLoop dateStr iu ic (appleDataLines content) with
    | .ok data => ([.foundIos data.length], .ok data)
    | .error e => ([], .error e)
  | _, _ => ([.missingColumns], .ok [])

/-- Lines 88-161, `get_apple_data` after the token request: given the target
date string and the API response, returns the printed log lines and either
the emitted rows or the propagated exception. -/
def get_apple_data (dateStr : String) (resp : AppleResponse) :
    List Log × Except PyError (List (List Field)) :=
  if resp.status ≠ 200 then
    ([.fetchingAppleBanner, .appleApiError resp.text], .ok [])
  else
    match resp.body with
    | .invalid => ([.fetchingAppleBanner, .decompressFailed], .ok [])
    | .valid content =>
      let r := parseAppleReport dateStr content
      (.fetchingAppleBanner :: r.1, r.2)

/-- What one Apple data line contributes to the output when no exception
occurs: the `.ok` projection of `appleRowStep`. -/
def appleEmitOf (dateStr : String) (iu ic : Nat) (line : String) : Option (List Field) :=
  match appleRowStep dateStr iu ic line with
  | .ok v => v
  | .error _ => none

/-- The calls `update_sheet` makes against the spreadsheet service, in order:
authorization, opening the worksheet, and the single batch `append_rows`. -/
inductive SheetCall where
  | authorize
  | openWorksheet (sheetId tab : String)
  | appendRows (rows : List (List Field))
  deriving Repr, DecidableEq

/-- Lines 163-179, `update_sheet`: an empty input short-circuits before any
service call; otherwise authorize, open the `Data` worksheet, and append all
rows in one batch call. -/
def update_sheet (sheetId : String) (rows : List (List Field)) :
    List Log × List SheetCall :=
  match rows with
  | [] => ([.noNewData], [])
  | _ =>
    ([.uploading rows.length, .uploadSuccess],
     [.authorize, .openWorksheet sheetId "Data", .appendRows rows])

/-- The rows carried by a batch append call, `none` for the other calls. -/
def appendPayload : SheetCall → Option (List (List Field))
  | .appendRows rows => some rows
  | _ => none

/-- Lines 181-192, the entry point after computing the target date: run the
Android fetcher, then the iOS fetcher, concatenate, and hand the result to
`update_sheet`; an uncaught exception in either fetcher terminates the
process before any sheet call. -/
def mainCalls (sheetId dateStr : String) (dl : GDownload) (resp : AppleResponse) :
    Except PyError (List SheetCall) :=
  match (get_google_play_data dateStr dl).2 with
  | .error e => .error e
  | .ok androidData =>
    match (get_apple_data dateStr resp).2 with
    | .error e => .error e
    | .ok iosData => .ok (update_sheet sheetId (androidData ++ iosData)).2

/-- The count cell of an emitted row (its last element, when it is an int). -/
def rowCount (r : List Field) : Option Int :=
  match r.getLast? with
  | some (Field.i n) => some n
  | _ => none

theorem rowCount_quad (a b c : Field) (n : Int) :
    rowCount [a, b, c, Field.i n] = some n := rfl

theorem googleLoop_cons (dateStr : String) (row : PyRow) (rest : List PyRow) :
    googleLoop dateStr (row :: rest) =
      match googleRowStep dateStr row with
      | .error e => .error e
      | .ok none => googleLoop dateStr rest
      | .ok (some r) =>
        match googleLoop dateStr rest with
        | .error e => .error e
        | .ok tl => .ok (r :: tl) := rfl

theorem googleLoop_ok_filterMap (dateStr : String) :
    ∀ rows out, googleLoop dateStr rows = .ok out →
      out = rows.filterMap (emitOf dateStr) := by
  intro rows
  induction rows with
  | nil =>
    intro out h
    simp only [googleLoop] at h
    cases h
    simp
  | cons row rest ih =>
    intro out h
    rw [googleLoop_cons] at h
    cases hstep : googleRowStep dateStr row with
    | error e => rw [hstep] at h; cases h
    | ok v =>
      rw [hstep] at h
      cases v with
      | none =>
        simpa [List.filterMap_cons, emitOf, hstep] using ih out h
      | some r =>
        cases hrec : googleLoop dateStr rest with
        | error e => rw [hrec] at h; cases h
        | ok tl =>
          rw [hrec] at h
          cases h
          simp [List.filterMap_cons, emitOf, hstep, ih tl hrec]

theorem emitOf_eq_some (dateStr : String) (row : PyRow) (r : List Field)
    (h : emitOf dateStr row = some r) :
    rowGet row "Date" = some (some dateStr) ∧
    ∃ n : Int, 0 < n ∧ installsOf row = .ok n ∧
      r = [Field.s dateStr, countryOf row, Field.s "Android", Field.i n] := by
  cases hd : rowGet row "Date" with
  | none => simp [emitOf, googleRowStep, hd] at h
  | some dval =>
    by_cases hif : dval = some dateStr
    · subst hif
      cases hins : installsOf row with
      | error e => simp [emitOf, googleRowStep, hd, hins] at h
      | ok n =>
        by_cases hpos : 0 < n
        · simp [emitOf, googleRowStep, hd, hins, hpos] at h
          exact ⟨rfl, n, hpos, rfl, h.symm⟩
        · simp [emitOf, googleRowStep, hd, hins, hpos] at h
    · simp [emitOf, googleRowStep, hd, hif] at h

theorem emitOf_none_of_date_ne (dateStr : String) (row : PyRow) (dval : Option String)
    (hd : rowGet row "Date" = some dval) (hne : dval ≠ some dateStr) :
    emitOf dateStr row = none := by
  simp [emitOf, googleRowStep, hd, hne]

theorem emitOf_of_match (dateStr : String) (row : PyRow) (n : Int)
    (hd : rowGet row "Date" = some (some dateStr))
    (hins : installsOf row = .ok n) :
    emitOf dateStr row =
      if 0 < n then
        some [Field.s dateStr, countryOf row, Field.s "Android", Field.i n]
      else none := by
  by_cases hpos : 0 < n
  · simp [emitOf, googleRowStep, hd, hins, hpos]
  · simp [emitOf, googleRowStep, hd, hins, hpos]

theorem appleLoop_cons (dateStr : String) (iu ic : Nat) (line : String) (rest : List String) :
    appleLoop dateStr iu ic (line :: rest) =
      match appleRowStep dateStr iu ic line with
      | .error e => .error e
      | .ok none => appleLoop dateStr iu ic rest
      | .ok (some r) =>
        match appleLoop dateStr iu ic rest with
        | .error e => .error e
        | .ok tl => .ok (r :: tl) := rfl

theorem appleLoop_ok_filterMap (dateStr : String) (iu ic : Nat) :
    ∀ lines out, appleLoop dateStr iu ic lines = .ok out →
      out = lines.filterMap (appleEmitOf dateStr iu ic) := by
  intro lines
  induction lines with
  | nil =>
    intro out h
    simp only [appleLoop] at h
    cases h
    simp
  | cons line rest ih =>
    intro out h
    rw [appleLoop_cons] at h
    cases hstep : appleRowStep dateStr iu ic line with
    | error e => rw [hstep] at h; cases h
    | ok v =>
      rw [hstep] at h
      cases v with
      | none =>
        simpa [List.filterMap_cons, appleEmitOf, hstep] using ih out h
      | some r =>
        cases hrec : appleLoop dateStr iu ic rest with
        | error e => rw [hrec] at h; cases h
        | ok tl =>
          rw [hrec] at h
          cases h
          simp [List.filterMap_cons, appleEmitOf, hstep, ih tl hrec]

theorem appleEmitOf_eq_some (dateStr : String) (iu ic : Nat) (line : String) (r : List Field)
    (h : appleEmitOf dateStr iu ic line = some r) :
    ∃ c : String, ∃ n : Int, 0 < n ∧
      colGet (pySplit '\t' line) ic = .ok c ∧
      r = [Field.s dateStr, Field.s c, Field.s "iOS", Field.i n] := by
  cases hu : colGet (pySplit '\t' line) iu with
  | error e => simp [appleEmitOf, appleRowStep, hu] at h
  | ok us =>
    cases hn : pyIntS us with
    | error e => simp [appleEmitOf, appleRowStep, hu, hn] at h
    | ok n =>
      cases hc : colGet (pySplit '\t' line) ic with
      | error e => simp [appleEmitOf, appleRowStep, hu, hn, hc] at h
      | ok c =>
        by_cases hpos : 0 < n
        · simp [appleEmitOf, appleRowStep, hu, hn, hc, hpos] at h
          exact ⟨c, n, hpos, rfl, h.symm⟩
        · simp [appleEmitOf, appleRowStep, hu, hn, hc, hpos] at h

theorem appleEmitOf_of_cells (dateStr : String) (iu ic : Nat) (line : String)
    (us c : String) (n : Int)
    (hu : colGet (pySplit '\t' line) iu = .ok us)
    (hn : pyIntS us = .ok n)
    (hc : colGet (pySplit '\t' line) ic = .ok c) :
    appleEmitOf dateStr iu ic line =
      if 0 < n then some [Field.s dateStr, Field.s c, Field.s "iOS", Field.i n]
      else none := by
  by_cases hpos : 0 < n
  · simp [appleEmitOf, appleRowStep, hu, hn, hc, hpos]
  · simp [appleEmitOf, appleRowStep, hu, hn, hc, hpos]

theorem google_ok_filterMap (dateStr : String) (dl : GDownload) (ga : List (List Field))
    (hg : (get_google_play_data dateStr dl).2 = .ok ga) :
    ga = [] ∨ ∃ content, dl = .success content ∧
      ga = (dictReader content).filterMap (emitOf dateStr) := by
  cases dl with
  | notFound =>
    simp [get_google_play_data] at hg
    exact Or.inl hg
  | forbidden =>
    simp [get_google_play_data] at hg
    exact Or.inl hg
  | genericError msg =>
    simp [get_google_play_data] at hg
    exact Or.inl hg
  | success content =>
    cases hloop : googleLoop dateStr (dictReader content) with
    | error e => simp [get_google_play_data, hloop] at hg
    | ok data =>
      simp [get_google_play_data, hloop] at hg
      exact Or.inr ⟨content, rfl, hg ▸ googleLoop_ok_filterMap dateStr _ data hloop⟩

theorem apple_ok_filterMap (dateStr : String) (resp : AppleResponse)
    (ia : List (List Field))
    (ha : (get_apple_data dateStr resp).2 = .ok ia) :
    ia = [] ∨ ∃ content iu ic, resp.body = .valid content ∧
      (appleHeader content).findIdx? (fun x => x == "Units") = some iu ∧
      (appleHeader content).findIdx? (fun x => x == "Country Code") = some ic ∧
      ia = (appleDataLines content).filterMap (appleEmitOf dateStr iu ic) := by
  rcases resp with ⟨st, txt, body⟩
  by_cases hst : st = 200
  · subst hst
    cases body with
    | invalid =>
      simp [get_apple_data] at ha
      exact Or.inl ha
    | valid content =>
      simp [get_apple_data] at ha
      cases hu : (appleHeader content).findIdx? (fun x => x == "Units") with
      | none =>
        cases hc : (appleHeader content).findIdx? (fun x => x == "Country Code") with
        | none => simp [parseAppleReport, hu, hc] at ha; exact Or.inl ha
        | some ic => simp [parseAppleReport, hu, hc] at ha; exact Or.inl ha
      | some iu =>
        cases hc : (appleHeader content).findIdx? (fun x => x == "Country Code") with
        | none => simp [parseAppleReport, hu, hc] at ha; exact Or.inl ha
        | some ic =>
          cases hloop : appleLoop dateStr iu ic (appleDataLines content) with
          | error e => simp [parseAppleReport, hu, hc, hloop] at ha
          | ok data =>
            simp [parseAppleReport, hu, hc, hloop] at ha
            exact Or.inr ⟨content, iu, ic, rfl, hu, hc,
              ha ▸ appleLoop_ok_filterMap dateStr iu ic _ data hloop⟩
  · simp [get_apple_data, hst] at ha
    exact Or.inl ha

/-- C1: every row emitted by `get_google_play_data` and every row emitted by
`get_apple_data` carries a count strictly greater than 0; a row whose
install/unit count is 0 or negative is never emitted by either fetcher. -/
theorem C1_emitted_counts_positive (dateStr : String) (dl : GDownload)
    (resp : AppleResponse) (ga ia : List (List Field))
    (hg : (get_google_play_data dateStr dl).2 = .ok ga)
    (ha : (get_apple_data dateStr resp).2 = .ok ia) :
    (∀ r ∈ ga, ∃ n : Int, rowCount r = some n ∧ 0 < n) ∧
    (∀ r ∈ ia, ∃ n : Int, rowCount r = some n ∧ 0 < n) := by
  constructor
  · intro r hr
    rcases google_ok_filterMap dateStr dl ga hg with hempty | ⟨content, _, hfm⟩
    · subst hempty; cases hr
    · subst hfm
      rcases List.mem_filterMap.mp hr with ⟨row, _, hemit⟩
      rcases emitOf_eq_some dateStr row r hemit with ⟨_, n, hpos, _, hshape⟩
      exact ⟨n, hshape ▸ rowCount_quad _ _ _ n, hpos⟩
  · intro r hr
    rcases apple_ok_filterMap dateStr resp ia ha with hempty | ⟨content, iu, ic, _, _, _, hfm⟩
    · subst hempty; cases hr
    · subst hfm
      rcases List.mem_filterMap.mp hr with ⟨line, _, hemit⟩
      rcases appleEmitOf_eq_some dateStr iu ic line r hemit with ⟨c, n, hpos, _, hshape⟩
      exact ⟨n, hshape ▸ rowCount_quad _ _ _ n, hpos⟩

theorem C1_emitted_counts_positive_witness :
    ((get_google_play_data "2024-03-01"
        (GDownload.success "Date,Country,Daily User Installs\n2024-03-01,US,5\n2024-03-01,DE,0")).2 =
      Except.ok [[Field.s "2024-03-01", Field.s "US", Field.s "Android", Field.i 5]]) ∧
    ((get_apple_data "2024-03-01"
        ⟨200, "", AppleBody.valid "Units\tCountry Code\n7\tJP\n0\tUS"⟩).2 =
      Except.ok [[Field.s "2024-03-01", Field.s "JP", Field.s "iOS", Field.i 7]]) ∧
    ((∀ r ∈ [[Field.s "2024-03-01", Field.s "US", Field.s "Android", Field.i 5]],
        ∃ n : Int, rowCount r = some n ∧ 0 < n) ∧
      (∀ r ∈ [[Field.s "2024-03-01", Field.s "JP", Field.s "iOS", Field.i 7]],
        ∃ n : Int, rowCount r = some n ∧ 0 < n)) :=
  ⟨rfl, rfl,
   C1_emitted_counts_positive "2024-03-01"
     (GDownload.success "Date,Country,Daily User Installs\n2024-03-01,US,5\n2024-03-01,DE,0")
     ⟨200, "", AppleBody.valid "Units\tCountry Code\n7\tJP\n0\tUS"⟩
     [[Field.s "2024-03-01", Field.s "US", Field.s "Android", Field.i 5]]
     [[Field.s "2024-03-01", Field.s "JP", Field.s "iOS", Field.i 7]]
     rfl rfl⟩

/-- C3: on a well-formed Android CSV whose parsing loop completes without an
exception, the output is exactly the per-row filter-map of the data rows: a
row whose `Date` cell equals the target date and whose installs value parses
to a positive integer contributes exactly one output row
`[date, country, 'Android', installs]`, and a row whose `Date` cell differs
from the target date contributes nothing. -/
theorem C3_google_row_emission (dateStr content : String) (out : List (List Field))
    (h : (get_google_play_data dateStr (GDownload.success content)).2 = .ok out) :
    out = (dictReader content).filterMap (emitOf dateStr) ∧
    (∀ row : PyRow, ∀ n : Int, rowGet row "Date" = some (some dateStr) →
      installsOf row = .ok n → 0 < n →
      emitOf dateStr row =
        some [Field.s dateStr, countryOf row, Field.s "Android", Field.i n]) ∧
    (∀ row : PyRow, ∀ dval : Option String, rowGet row "Date" = some dval →
      dval ≠ some dateStr → emitOf dateStr row = none) := by
  refine ⟨?_, ?_, ?_⟩
  · cases hloop : googleLoop dateStr (dictReader content) with
    | error e => simp [get_google_play_data, hloop] at h
    | ok data =>
      simp [get_google_play_data, hloop] at h
      exact h ▸ googleLoop_ok_filterMap dateStr _ data hloop
  · intro row n hd hins hpos
    rw [emitOf_of_match dateStr row n hd hins, if_pos hpos]
  · intro row dval hd hne
    exact emitOf_none_of_date_ne dateStr row dval hd hne

theorem C3_google_row_emission_witness :
    ((get_google_play_data "2024-03-01"
        (GDownload.success
          "Date,Country,Daily User Installs\n2024-03-01,US,5\n2024-03-02,DE,7")).2 =
      Except.ok [[Field.s "2024-03-01", Field.s "US", Field.s "Android", Field.i 5]]) ∧
    ([[Field.s "2024-03-01", Field.s "US", Field.s "Android", Field.i 5]] =
        (dictReader
          "Date,Country,Daily User Installs\n2024-03-01,US,5\n2024-03-02,DE,7").filterMap
          (emitOf "2024-03-01") ∧
      (∀ row : PyRow, ∀ n : Int, rowGet row "Date" = some (some "2024-03-01") →
        installsOf row = .ok n → 0 < n →
        emitOf "2024-03-01" row =
          some [Field.s "2024-03-01", countryOf row, Field.s "Android", Field.i n]) ∧
      (∀ row : PyRow, ∀ dval : Option String, rowGet row "Date" = some dval →
        dval ≠ some "2024-03-01" → emitOf "2024-03-01" row = none)) :=
  ⟨rfl,
   C3_google_row_emission "2024-03-01"
     "Date,Country,Daily User Installs\n2024-03-01,US,5\n2024-03-02,DE,7"
     [[Field.s "2024-03-01", Field.s "US", Field.s "Android", Field.i 5]] rfl⟩

theorem rowGet_mkRow_eq_none (header fields : List String) (k : String)
    (hk : k ∉ header) :
    rowGet (mkRow header fields) k = none := by
  unfold rowGet
  rw [Option.map_eq_none', List.find?_eq_none]
  intro p hp
  rw [List.mem_reverse] at hp
  unfold mkRow at hp
  rcases List.mem_append.mp hp with hzip | hdrop
  · have := (List.of_mem_zip hzip).1
    intro hbeq
    exact hk ((beq_iff_eq.mp hbeq) ▸ this)
  · rcases List.mem_map.mp hdrop with ⟨k', hk', hpk⟩
    cases hpk
    intro hbeq
    exact hk ((beq_iff_eq.mp hbeq) ▸ List.mem_of_mem_drop hk')

/-- C9: an Android CSV data row that matches the target date and has a
positive install count, read against a header with no `Country` column, is
emitted with the literal country string `Unknown` rather than being skipped
or raising. -/
theorem C9_missing_country_unknown (dateStr : String) (header fields : List String)
    (n : Int)
    (hc : "Country" ∉ header)
    (hd : rowGet (mkRow header fields) "Date" = some (some dateStr))
    (hn : installsOf (mkRow header fields) = .ok n)
    (hpos : 0 < n) :
    emitOf dateStr (mkRow header fields) =
      some [Field.s dateStr, Field.s "Unknown", Field.s "Android", Field.i n] := by
  have hcountry : countryOf (mkRow header fields) = .s "Unknown" := by
    unfold countryOf
    rw [rowGet_mkRow_eq_none header fields "Country" hc]
  rw [emitOf_of_match dateStr _ n hd hn, if_pos hpos, hcountry]

theorem C9_missing_country_unknown_witness :
    ("Country" ∉ ["Date", "Daily User Installs"] ∧
      rowGet (mkRow ["Date", "Daily User Installs"] ["2024-03-01", "5"]) "Date" =
        some (some "2024-03-01") ∧
      installsOf (mkRow ["Date", "Daily User Installs"] ["2024-03-01", "5"]) =
        .ok 5 ∧
      (0 : Int) < 5) ∧
    emitOf "2024-03-01" (mkRow ["Date", "Daily User Installs"] ["2024-03-01", "5"]) =
      some [Field.s "2024-03-01", Field.s "Unknown", Field.s "Android", Field.i 5] :=
  ⟨⟨by decide, rfl, rfl, by decide⟩,
   C9_missing_country_unknown "2024-03-01" ["Date", "Daily User Installs"]
     ["2024-03-01", "5"] 5 (by decide) rfl rfl (by decide)⟩

/-- C5: for every API response whose HTTP status code is not 200,
`get_apple_data` logs the response body and returns an empty sequence,
regardless of the response body's content and with no distinction between
4xx and 5xx statuses. -/
theorem C5_non200_logs_and_empty (dateStr : String) (st : Nat) (txt : String)
    (body : AppleBody) (h : st ≠ 200) :
    get_apple_data dateStr ⟨st, txt, body⟩ =
      ([.fetchingAppleBanner, .appleApiError txt], .ok []) := by
  simp [get_apple_data, h]

theorem C5_non200_logs_and_empty_witness :
    ((404 : Nat) ≠ 200 ∧
      get_apple_data "2024-03-01" ⟨404, "error body", AppleBody.valid "Units\tCountry Code\n7\tJP"⟩ =
        ([.fetchingAppleBanner, .appleApiError "error body"], .ok [])) ∧
    ((503 : Nat) ≠ 200 ∧
      get_apple_data "2024-03-01" ⟨503, "server error", AppleBody.invalid⟩ =
        ([.fetchingAppleBanner, .appleApiError "server error"], .ok [])) :=
  ⟨⟨by decide,
    C5_non200_logs_and_empty "2024-03-01" 404 "error body" (AppleBody.valid "Units\tCountry Code\n7\tJP") (by decide)⟩,
   ⟨by decide,
    C5_non200_logs_and_empty "2024-03-01" 503 "server error" AppleBody.invalid (by decide)⟩⟩

/-- C7: given an empty row sequence, `update_sheet` performs zero calls to
the spreadsheet service and logs a no-op message; given a non-empty sequence
it authorizes, opens the `Data` worksheet, and appends all rows in one batch
call carrying them in the given order. -/
theorem C7_update_sheet_contract (sheetId : String) (rows : List (List Field))
    (h : rows ≠ []) :
    update_sheet sheetId [] = ([.noNewData], []) ∧
    update_sheet sheetId rows =
      ([.uploading rows.length, .uploadSuccess],
       [.authorize, .openWorksheet sheetId "Data", .appendRows rows]) := by
  refine ⟨rfl, ?_⟩
  cases rows with
  | nil => exact absurd rfl h
  | cons r rs => rfl

theorem C7_update_sheet_contract_witness :
    ([[Field.s "2024-03-01", Field.s "US", Field.s "Android", Field.i 5]] :
        List (List Field)) ≠ [] ∧
    (update_sheet "sheet1" [] = ([.noNewData], []) ∧
      update_sheet "sheet1" [[Field.s "2024-03-01", Field.s "US", Field.s "Android", Field.i 5]] =
        ([.uploading 1, .uploadSuccess],
         [.authorize, .openWorksheet "sheet1" "Data",
          .appendRows [[Field.s "2024-03-01", Field.s "US", Field.s "Android", Field.i 5]]])) :=
  ⟨by decide,
   C7_update_sheet_contract "sheet1"
     [[Field.s "2024-03-01", Field.s "US", Field.s "Android", Field.i 5]] (by decide)⟩

/-- C8: the authentication token is built by a `jwt.encode` call whose
algorithm argument is ES256, whose key is the configured private key, whose
header is `{alg = ES256, kid = key id, typ = JWT}`, and whose payload is
`{iss = issuer id, exp = now + 20 minutes, aud = "appstoreconnect-v1"}`. -/
theorem C8_jwt_construction (now : Int) (cfg : AppleConfig) :
    (makeAppleToken now cfg).algorithm = "ES256" ∧
    (makeAppleToken now cfg).key = cfg.privateKey ∧
    (makeAppleToken now cfg).headers =
      { alg := "ES256", kid := cfg.keyId, typ := "JWT" } ∧
    (makeAppleToken now cfg).payload.iss = cfg.issuerId ∧
    (makeAppleToken now cfg).payload.exp = now + 20 * 60 ∧
    (makeAppleToken now cfg).payload.aud = "appstoreconnect-v1" :=
  ⟨rfl, rfl, rfl, rfl, rfl, rfl⟩

/-- C6: on a successfully decompressed report whose header row lacks a
`Units` or a `Country Code` column, `get_apple_data` logs a message and
returns an empty sequence; when both columns are present, the parse runs
with the positional indices found by name lookup in the header row, wherever
those columns sit. -/
theorem C6_header_name_lookup (dateStr txt content : String) :
    ((appleHeader content).findIdx? (fun x => x == "Units") = none ∨
      (appleHeader content).findIdx? (fun x => x == "Country Code") = none →
      get_apple_data dateStr ⟨200, txt, AppleBody.valid content⟩ =
        ([.fetchingAppleBanner, .missingColumns], .ok [])) ∧
    (∀ iu ic : Nat,
      (appleHeader content).findIdx? (fun x => x == "Units") = some iu →
      (appleHeader content).findIdx? (fun x => x == "Country Code") = some ic →
      (get_apple_data dateStr ⟨200, txt, AppleBody.valid content⟩).2 =
        appleLoop dateStr iu ic (appleDataLines content)) := by
  constructor
  · intro hmiss
    rcases hmiss with hu | hc
    · cases hc : (appleHeader content).findIdx? (fun x => x == "Country Code") with
      | none => simp [get_apple_data, parseAppleReport, hu, hc]
      | some ic => simp [get_apple_data, parseAppleReport, hu, hc]
    · cases hu : (appleHeader content).findIdx? (fun x => x == "Units") with
      | none => simp [get_apple_data, parseAppleReport, hu, hc]
      | some iu => simp [get_apple_data, parseAppleReport, hu, hc]
  · intro iu ic hu hc
    cases hloop : appleLoop dateStr iu ic (appleDataLines content) with
    | error e => simp [get_apple_data, parseAppleReport, hu, hc, hloop]
    | ok data => simp [get_apple_data, parseAppleReport, hu, hc, hloop]

theorem C6_header_name_lookup_witness :
    (((appleHeader "A\tB\n5\tX").findIdx? (fun x => x == "Units") = none ∨
        (appleHeader "A\tB\n5\tX").findIdx? (fun x => x == "Country Code") = none) ∧
      get_apple_data "2024-03-01" ⟨200, "", AppleBody.valid "A\tB\n5\tX"⟩ =
        ([.fetchingAppleBanner, .missingColumns], .ok [])) ∧
    ((appleHeader "Country Code\tSKU\tUnits\nJP\tapp1\t7").findIdx?
        (fun x => x == "Units") = some 2 ∧
      (appleHeader "Country Code\tSKU\tUnits\nJP\tapp1\t7").findIdx?
        (fun x => x == "Country Code") = some 0 ∧
      (get_apple_data "2024-03-01"
          ⟨200, "", AppleBody.valid "Country Code\tSKU\tUnits\nJP\tapp1\t7"⟩).2 =
        appleLoop "2024-03-01" 2 0 (appleDataLines "Country Code\tSKU\tUnits\nJP\tapp1\t7")) :=
  ⟨⟨Or.inl (by decide),
    (C6_header_name_lookup "2024-03-01" "" "A\tB\n5\tX").1 (Or.inl (by decide))⟩,
   ⟨by decide, by decide,
    (C6_header_name_lookup "2024-03-01" "" "Country Code\tSKU\tUnits\nJP\tapp1\t7").2
      2 0 (by decide) (by decide)⟩⟩

/-- C10: `get_apple_data` applies no date filter to the report body: once the
column indices are found, a successful parse emits exactly one row for every
data line whose units value is positive — the emission test depends only on
the units value — and the date cell of every emitted row is the target date
string, whatever dates the report body contains. -/
theorem C10_no_date_filter (dateStr txt content : String) (iu ic : Nat)
    (out : List (List Field))
    (hu : (appleHeader content).findIdx? (fun x => x == "Units") = some iu)
    (hc : (appleHeader content).findIdx? (fun x => x == "Country Code") = some ic)
    (h : (get_apple_data dateStr ⟨200, txt, AppleBody.valid content⟩).2 = .ok out) :
    out = (appleDataLines content).filterMap (appleEmitOf dateStr iu ic) ∧
    (∀ r ∈ out, r.head? = some (Field.s dateStr)) ∧
    (∀ line us c : String, ∀ n : Int,
      colGet (pySplit '\t' line) iu = .ok us → pyIntS us = .ok n →
      colGet (pySplit '\t' line) ic = .ok c →
      appleEmitOf dateStr iu ic line =
        if 0 < n then some [Field.s dateStr, Field.s c, Field.s "iOS", Field.i n]
        else none) := by
  have hfm : out = (appleDataLines content).filterMap (appleEmitOf dateStr iu ic) := by
    cases hloop : appleLoop dateStr iu ic (appleDataLines content) with
    | error e => simp [get_apple_data, parseAppleReport, hu, hc, hloop] at h
    | ok data =>
      simp [get_apple_data, parseAppleReport, hu, hc, hloop] at h
      exact h ▸ appleLoop_ok_filterMap dateStr iu ic _ data hloop
  refine ⟨hfm, ?_, ?_⟩
  · intro r hr
    rw [hfm] at hr
    rcases List.mem_filterMap.mp hr with ⟨line, _, hemit⟩
    rcases appleEmitOf_eq_some dateStr iu ic line r hemit with ⟨c, n, _, _, hshape⟩
    rw [hshape]
    rfl
  · intro line us c n hus hn hcl
    exact appleEmitOf_of_cells dateStr iu ic line us c n hus hn hcl

theorem C10_no_date_filter_witness :
    ((appleHeader "Units\tCountry Code\n7\tJP\n0\tUS").findIdx?
        (fun x => x == "Units") = some 0 ∧
      (appleHeader "Units\tCountry Code\n7\tJP\n0\tUS").findIdx?
        (fun x => x == "Country Code") = some 1 ∧
      (get_apple_data "2024-03-01"
          ⟨200, "", AppleBody.valid "Units\tCountry Code\n7\tJP\n0\tUS"⟩).2 =
        Except.ok [[Field.s "2024-03-01", Field.s "JP", Field.s "iOS", Field.i 7]]) ∧
    ([[Field.s "2024-03-01", Field.s "JP", Field.s "iOS", Field.i 7]] =
        (appleDataLines "Units\tCountry Code\n7\tJP\n0\tUS").filterMap
          (appleEmitOf "2024-03-01" 0 1) ∧
      (∀ r ∈ [[Field.s "2024-03-01", Field.s "JP", Field.s "iOS", Field.i 7]],
        r.head? = some (Field.s "2024-03-01")) ∧
      (∀ line us c : String, ∀ n : Int,
        colGet (pySplit '\t' line) 0 = .ok us → pyIntS us = .ok n →
        colGet (pySplit '\t' line) 1 = .ok c →
        appleEmitOf "2024-03-01" 0 1 line =
          if 0 < n then
            some [Field.s "2024-03-01", Field.s c, Field.s "iOS", Field.i n]
          else none)) :=
  ⟨⟨by decide, by decide, rfl⟩,
   C10_no_date_filter "2024-03-01" "" "Units\tCountry Code\n7\tJP\n0\tUS" 0 1
     [[Field.s "2024-03-01", Field.s "JP", Field.s "iOS", Field.i 7]]
     (by decide) (by decide) rfl⟩

/-- C2 counterexample: a downloaded Google Play report whose install count
field is not an integer makes the fetcher raise an uncaught `ValueError`
instead of logging and returning an empty sequence. -/
theorem C2_counterexample_parse_failure_raises :
    (get_google_play_data "2024-03-01"
        (GDownload.success "Date,Country,Daily User Installs\n2024-03-01,US,five")).2 =
      Except.error PyError.valueError ∧
    (get_google_play_data "2024-03-01"
        (GDownload.success "Date,Country,Daily User Installs\n2024-03-01,US,five")).2 ≠
      Except.ok [] :=
  ⟨rfl, by decide⟩

/-- C2 (amended): download-stage failures (Google: missing object, denied
access, any other download exception; Apple: non-200 response, decompression
failure, header without `Units` or `Country Code`) are logged and yield an
empty sequence, but parse failures inside the row loops propagate as uncaught
exceptions: a non-integer count field (either fetcher), a Google header with
no `Date` column, and an Apple data line too short for a located column index
all abort the fetch instead of returning an empty sequence. -/
theorem C2_amended_error_handling (dateStr msg txt content : String) (st : Nat)
    (body : AppleBody)
    (hst : st ≠ 200)
    (hmiss : (appleHeader content).findIdx? (fun x => x == "Units") = none ∨
      (appleHeader content).findIdx? (fun x => x == "Country Code") = none) :
    get_google_play_data dateStr GDownload.notFound =
      ([.fetchingGoogleBanner, .fileNotFound], .ok []) ∧
    get_google_play_data dateStr GDownload.forbidden =
      ([.fetchingGoogleBanner, .permissionDenied, .permissionHint], .ok []) ∧
    get_google_play_data dateStr (GDownload.genericError msg) =
      ([.fetchingGoogleBanner, .downloadError msg], .ok []) ∧
    get_apple_data dateStr ⟨st, txt, body⟩ =
      ([.fetchingAppleBanner, .appleApiError txt], .ok []) ∧
    get_apple_data dateStr ⟨200, txt, AppleBody.invalid⟩ =
      ([.fetchingAppleBanner, .decompressFailed], .ok []) ∧
    get_apple_data dateStr ⟨200, txt, AppleBody.valid content⟩ =
      ([.fetchingAppleBanner, .missingColumns], .ok []) ∧
    (get_google_play_data "2024-03-01"
        (GDownload.success "Date,Country,Daily User Installs\n2024-03-01,US,five")).2 =
      Except.error PyError.valueError ∧
    (get_google_play_data "2024-03-01"
        (GDownload.success "Country,Daily User Installs\nUS,5")).2 =
      Except.error PyError.keyError ∧
    (get_apple_data "2024-03-01" ⟨200, txt, AppleBody.valid "Units\tCountry Code\n7"⟩).2 =
      Except.error PyError.indexError ∧
    (get_apple_data "2024-03-01"
        ⟨200, txt, AppleBody.valid "Units\tCountry Code\nseven\tJP"⟩).2 =
      Except.error PyError.valueError := by
  refine ⟨rfl, rfl, rfl, by simp [get_apple_data, hst], rfl, ?_, rfl, rfl, rfl, rfl⟩
  rcases hmiss with hu | hc
  · cases hc : (appleHeader content).findIdx? (fun x => x == "Country Code") with
    | none => simp [get_apple_data, parseAppleReport, hu, hc]
    | some ic => simp [get_apple_data, parseAppleReport, hu, hc]
  · cases hu : (appleHeader content).findIdx? (fun x => x == "Units") with
    | none => simp [get_apple_data, parseAppleReport, hu, hc]
    | some iu => simp [get_apple_data, parseAppleReport, hu, hc]

theorem C2_amended_error_handling_witness :
    ((404 : Nat) ≠ 200 ∧
      ((appleHeader "Units\tSKU\n5\tapp1").findIdx? (fun x => x == "Units") = none ∨
        (appleHeader "Units\tSKU\n5\tapp1").findIdx? (fun x => x == "Country Code") = none)) ∧
    (get_google_play_data "2024-03-01" GDownload.notFound =
        ([.fetchingGoogleBanner, .fileNotFound], .ok []) ∧
      get_google_play_data "2024-03-01" GDownload.forbidden =
        ([.fetchingGoogleBanner, .permissionDenied, .permissionHint], .ok []) ∧
      get_google_play_data "2024-03-01" (GDownload.genericError "boom") =
        ([.fetchingGoogleBanner, .downloadError "boom"], .ok []) ∧
      get_apple_data "2024-03-01" ⟨404, "err", AppleBody.invalid⟩ =
        ([.fetchingAppleBanner, .appleApiError "err"], .ok []) ∧
      get_apple_data "2024-03-01" ⟨200, "err", AppleBody.invalid⟩ =
        ([.fetchingAppleBanner, .decompressFailed], .ok []) ∧
      get_apple_data "2024-03-01" ⟨200, "err", AppleBody.valid "Units\tSKU\n5\tapp1"⟩ =
        ([.fetchingAppleBanner, .missingColumns], .ok []) ∧
      (get_google_play_data "2024-03-01"
          (GDownload.success "Date,Country,Daily User Installs\n2024-03-01,US,five")).2 =
        Except.error PyError.valueError ∧
      (get_google_play_data "2024-03-01"
          (GDownload.success "Country,Daily User Installs\nUS,5")).2 =
        Except.error PyError.keyError ∧
      (get_apple_data "2024-03-01" ⟨200, "err", AppleBody.valid "Units\tCountry Code\n7"⟩).2 =
        Except.error PyError.indexError ∧
      (get_apple_data "2024-03-01"
          ⟨200, "err", AppleBody.valid "Units\tCountry Code\nseven\tJP"⟩).2 =
        Except.error PyError.valueError) :=
  ⟨⟨by decide, Or.inr (by decide)⟩,
   C2_amended_error_handling "2024-03-01" "boom" "err" "Units\tSKU\n5\tapp1" 404
     AppleBody.invalid (by decide) (Or.inr (by decide))⟩

/-- C4: when both fetchers return non-empty row sequences, the main flow
hands `update_sheet` exactly the Android rows followed by the iOS rows in
their original order, and the spreadsheet receives exactly one batch append
call, carrying that whole concatenation. -/
theorem C4_single_batch_append (sheetId dateStr : String) (dl : GDownload)
    (resp : AppleResponse) (a b : List (List Field))
    (hg : (get_google_play_data dateStr dl).2 = .ok a)
    (ha : (get_apple_data dateStr resp).2 = .ok b)
    (hna : a ≠ []) (_hnb : b ≠ []) :
    mainCalls sheetId dateStr dl resp =
      .ok [.authorize, .openWorksheet sheetId "Data", .appendRows (a ++ b)] ∧
    (mainCalls sheetId dateStr dl resp).map (fun calls => calls.filterMap appendPayload) =
      .ok [a ++ b] := by
  have hmain : mainCalls sheetId dateStr dl resp =
      .ok (update_sheet sheetId (a ++ b)).2 := by
    simp [mainCalls, hg, ha]
  cases a with
  | nil => exact absurd rfl hna
  | cons x xs => exact ⟨by rw [hmain]; rfl, by rw [hmain]; rfl⟩

theorem C4_single_batch_append_witness :
    ((get_google_play_data "2024-03-01"
        (GDownload.success "Date,Country,Daily User Installs\n2024-03-01,US,5")).2 =
      Except.ok [[Field.s "2024-03-01", Field.s "US", Field.s "Android", Field.i 5]] ∧
      (get_apple_data "2024-03-01"
          ⟨200, "", AppleBody.valid "Units\tCountry Code\n7\tJP"⟩).2 =
        Except.ok [[Field.s "2024-03-01", Field.s "JP", Field.s "iOS", Field.i 7]] ∧
      ([[Field.s "2024-03-01", Field.s "US", Field.s "Android", Field.i 5]] :
          List (List Field)) ≠ [] ∧
      ([[Field.s "2024-03-01", Field.s "JP", Field.s "iOS", Field.i 7]] :
          List (List Field)) ≠ []) ∧
    (mainCalls "sheet1" "2024-03-01"
        (GDownload.success "Date,Country,Daily User Installs\n2024-03-01,US,5")
        ⟨200, "", AppleBody.valid "Units\tCountry Code\n7\tJP"⟩ =
      .ok [.authorize, .openWorksheet "sheet1" "Data",
        .appendRows ([[Field.s "2024-03-01", Field.s "US", Field.s "Android", Field.i 5]] ++
          [[Field.s "2024-03-01", Field.s "JP", Field.s "iOS", Field.i 7]])] ∧
      (mainCalls "sheet1" "2024-03-01"
          (GDownload.success "Date,Country,Daily User Installs\n2024-03-01,US,5")
          ⟨200, "", AppleBody.valid "Units\tCountry Code\n7\tJP"⟩).map
          (fun calls => calls.filterMap appendPayload) =
        .ok [[[Field.s "2024-03-01", Field.s "US", Field.s "Android", Field.i 5]] ++
          [[Field.s "2024-03-01", Field.s "JP", Field.s "iOS", Field.i 7]]]) :=
  ⟨⟨rfl, rfl, by decide, by decide⟩,
   C4_single_batch_append "sheet1" "2024-03-01"
     (GDownload.success "Date,Country,Daily User Installs\n2024-03-01,US,5")
     ⟨200, "", AppleBody.valid "Units\tCountry Code\n7\tJP"⟩
     [[Field.s "2024-03-01", Field.s "US", Field.s "Android", Field.i 5]]
     [[Field.s "2024-03-01", Field.s "JP", Field.s "iOS", Field.i 7]]
     rfl rfl (by decide) (by decide)⟩

end DailySync
